import Mathlib

/-
Verification of the Lost-and-Found frontend core: the item repository,
the filter/search engine, the mutation handlers and the API path resolver,
shallowly embedded from the TypeScript sources.
-/

namespace LostFound

/-! ## JS string primitives (embedded over `List Char` / `String`) -/

/-- Characters treated as whitespace by `String.prototype.trim` (ASCII part). -/
def isWs (c : Char) : Bool :=
  c = ' ' || c = '\t' || c = '\n' || c = '\r' || c = '\x0b' || c = '\x0c'

/-- Slash test used by the resolver's regexes. -/
def isSlash (c : Char) : Bool := c = '/'

/-- Drop matching characters from the end of a list (regex `x+$` replace). -/
def dropTrailingWhile (p : Char → Bool) (l : List Char) : List Char :=
  (l.reverse.dropWhile p).reverse

/-- Drop matching characters from both ends (regex `^x+|x+$` replace). -/
def stripWhile (p : Char → Bool) (l : List Char) : List Char :=
  dropTrailingWhile p (l.dropWhile p)

/-- JS `s.trim()`. -/
def jsTrim (s : String) : String := ⟨stripWhile isWs s.data⟩

/-- JS `s.toLowerCase()` (ASCII behaviour, via `Char.toLower`). -/
def jsToLower (s : String) : String := ⟨s.data.map Char.toLower⟩

/-- Occurrence of `needle` as a contiguous substring (list level). -/
def infixOf (needle : List Char) : List Char → Bool
  | [] => needle.isEmpty
  | c :: t => needle.isPrefixOf (c :: t) || infixOf needle t

/-- JS `s.includes(sub)`. -/
def jsIncludes (s sub : String) : Bool := infixOf sub.data s.data

/-! ## Data model (src/types.ts: `Item`, `Filter`, `View`, `FormData`, `User`) -/

/-- `type: 'lost' | 'found'` of an item. -/
inductive ItemType where
  | lost
  | found
deriving DecidableEq, Repr

/-- `type: 'all' | 'lost' | 'found'` of the filter state. -/
inductive FilterType where
  | all
  | lost
  | found
deriving DecidableEq, Repr

/-- One lost/found report.  Runtime objects carry both the server key `_id`
and the client alias `id` (the fetch mapping sets `id := _id`); optional
fields default so concrete samples stay short. -/
structure Item where
  _id : String := ""
  id : String := ""
  type : ItemType := .lost
  category : String := ""
  title : String := ""
  description : String := ""
  date : String := ""
  location : String := ""
  contact : String := ""
  status : String := "active"
  reward : Option String := none
  ownerId : Option String := none
deriving DecidableEq, Repr

/-- Ephemeral filter UI state: `{ type, category }`, category `"all"` sentinel. -/
structure Filter where
  type : FilterType
  category : String
deriving DecidableEq, Repr

/-- `View = 'browse' | 'post'`. -/
inductive View where
  | browse
  | post
deriving DecidableEq, Repr

/-- The draft post form.  `imageFile` is modelled opaquely by its name. -/
structure FormData where
  type : ItemType
  category : String
  title : String
  description : String
  date : String
  location : String
  contact : String
  reward : String
  image : Option String
  imageFile : Option String
deriving DecidableEq, Repr

/-- The authenticated session record (`lf_user`). -/
structure User where
  userId : String
  name : String
  email : String
  apiKey : String
deriving DecidableEq, Repr

/-! ## Filter/search engine (part_003 lines 163-174, identical in part_001) -/

/-- `filter.type === 'all' || item.type === filter.type`. -/
def matchesType : FilterType → ItemType → Bool
  | .all, _ => true
  | .lost, .lost => true
  | .found, .found => true
  | _, _ => false

/-- The predicate of `filteredItems` (source computes
`q = searchTerm.trim().toLowerCase()` once; it is inlined here). -/
def itemMatches (filter : Filter) (searchTerm : String) (onlyActive : Bool)
    (item : Item) : Bool :=
  matchesType filter.type item.type
  && (decide (filter.category = "all") || decide (item.category = filter.category))
  && (decide (jsToLower (jsTrim searchTerm) = "")
      || jsIncludes (jsToLower item.title) (jsToLower (jsTrim searchTerm))
      || jsIncludes (jsToLower item.description) (jsToLower (jsTrim searchTerm))
      || jsIncludes (jsToLower item.location) (jsToLower (jsTrim searchTerm)))
  && (!onlyActive || decide (item.status = "active"))

/-- `const filteredItems = items.filter(...)`. -/
def filteredItems (items : List Item) (filter : Filter) (searchTerm : String)
    (onlyActive : Bool) : List Item :=
  items.filter (itemMatches filter searchTerm onlyActive)

/-- The category / search / status conjuncts of `itemMatches` on their own
(the tests other than the type test). -/
def restMatches (cat : String) (searchTerm : String) (onlyActive : Bool)
    (item : Item) : Bool :=
  (decide (cat = "all") || decide (item.category = cat))
  && (decide (jsToLower (jsTrim searchTerm) = "")
      || jsIncludes (jsToLower item.title) (jsToLower (jsTrim searchTerm))
      || jsIncludes (jsToLower item.description) (jsToLower (jsTrim searchTerm))
      || jsIncludes (jsToLower item.location) (jsToLower (jsTrim searchTerm)))
  && (!onlyActive || decide (item.status = "active"))

/-- The filter test exactly as §4.4 of the spec words it, for comparison with
the code's `itemMatches`: no trimming of the search term — an item passes if
the raw term is empty or occurs case-insensitively in title, description or
location (and the type / category / active-only tests hold). -/
def specVisiblePass (filter : Filter) (searchTerm : String) (activeOnly : Bool)
    (item : Item) : Bool :=
  matchesType filter.type item.type
  && (decide (filter.category = "all") || decide (item.category = filter.category))
  && (decide (searchTerm = "")
      || jsIncludes (jsToLower item.title) (jsToLower searchTerm)
      || jsIncludes (jsToLower item.description) (jsToLower searchTerm)
      || jsIncludes (jsToLower item.location) (jsToLower searchTerm))
  && (!activeOnly || decide (item.status = "active"))

/-- `visible(items, filter, searchTerm)` as the spec words it. -/
def specVisible (items : List Item) (filter : Filter) (searchTerm : String)
    (activeOnly : Bool) : List Item :=
  items.filter (specVisiblePass filter searchTerm activeOnly)

/-! ## Item repository operations -/

/-- The fetch mapping `(it) => ({ ...it, id: it._id })`. -/
def withClientId (it : Item) : Item := { it with id := it._id }

/-- The repository update of `handleDelete` / `handleResolve`:
`setItems(prev => prev.filter(it => it.id !== id))`. -/
def removeById (items : List Item) (id : String) : List Item :=
  items.filter (fun it => !decide (it.id = id))

/-- Repository + load-error slice of the component state touched by
`fetchItems` (part_003 lines 71-110). -/
structure LoadState where
  items : List Item
  error : Option String
deriving DecidableEq, Repr

/-- Outcome of `fetch(api('/api/items'))`: a thrown transport / JSON parse
failure, or an HTTP response with its `ok` flag, status code, and parsed
body `{success, data}` (`data = some l` iff `Array.isArray(json.data)`). -/
inductive FetchResult where
  | failure
  | http (ok : Bool) (status : Nat) (success : Bool) (data : Option (List Item))
deriving DecidableEq, Repr

/-- The message set by the `catch` block of `fetchItems`. -/
def loadFailMsg : String := "Failed to load items."

/-- `fetchItems` (part_003 lines 71-110) as a pure state transition: it
clears `error` up front; a 404 empties the repository without error; any
other non-ok status or a thrown failure keeps the prior items and sets the
error message only when the captured `items.length === 0`; an ok response
replaces the repository with `json.data` mapped through `withClientId`
(an absent array counts as `[]`), ignoring the body's `success` flag. -/
def fetchItems (prior : LoadState) (r : FetchResult) : LoadState :=
  match r with
  | .failure =>
      { items := prior.items
        error := if prior.items.length = 0 then some loadFailMsg else none }
  | .http ok status _success data =>
      if !ok then
        if status = 404 then { items := [], error := none }
        else
          { items := prior.items
            error := if prior.items.length = 0 then some loadFailMsg else none }
      else
        { items := (data.getD []).map withClientId, error := none }

/-! ## Create action (part_003 `handleSubmit`, lines 206-239) -/

/-- State slice touched by the submit resolution. -/
structure SubmitState where
  items : List Item
  formData : FormData
  view : View
deriving DecidableEq, Repr

/-- Outcome of `POST /api/items`: transport failure, or a response with the
`ok` flag and parsed body `{success, data, error}`. -/
inductive SubmitResponse where
  | transportError
  | reply (ok : Bool) (success : Bool) (data : Option Item) (error : Option String)
deriving DecidableEq, Repr

/-- Fallback alert of `handleSubmit` (`'Failed to post item'`). -/
def postFailMsg : String := "Failed to post item"

structure SubmitResult where
  state : SubmitState
  alert : Option String
deriving DecidableEq, Repr

/-- Form defaults (`type:'lost'`, today's date, empty strings). -/
def defaultFormData (today : String) : FormData :=
  { type := .lost, category := "", title := "", description := "", date := today
    location := "", contact := "", reward := "", image := none, imageFile := none }

/-- Resolution phase of `handleSubmit`: `if (!response.ok) throw json.error`;
on `json.success && json.data` prepend `{...data, id: data._id}`, reset the
form and return to browse; otherwise throw; the catch alerts the message
(the transport-failure message is modelled by the fallback string). -/
def handleSubmitResolve (today : String) (st : SubmitState)
    (r : SubmitResponse) : SubmitResult :=
  match r with
  | .transportError => ⟨st, some postFailMsg⟩
  | .reply ok success data err =>
      if !ok then ⟨st, some (err.getD postFailMsg)⟩
      else
        match success, data with
        | true, some d =>
            ⟨⟨withClientId d :: st.items, defaultFormData today, .browse⟩, none⟩
        | _, _ => ⟨st, some (err.getD postFailMsg)⟩

/-! ## Rotate-credential action (part_003 `handleRotateKey`, lines 256-271) -/

/-- The in-memory session and its `localStorage['lf_user']` copy. -/
structure SessionState where
  user : Option User
  stored : Option User
deriving DecidableEq, Repr

/-- Outcome of `POST /api/users/{id}/rotate-key`: transport failure, or a
parsed body `{success, error, data}`. -/
inductive RotateResponse where
  | transportError
  | reply (success : Bool) (error : Option String) (data : Option User)
deriving DecidableEq, Repr

/-- Fallback message of `handleRotateKey` (`'Failed to rotate key'`). -/
def rotateFailMsg : String := "Failed to rotate key"

structure RotateResult where
  state : SessionState
  alert : Option String
deriving DecidableEq, Repr

/-- `handleRotateKey`: `if (!user) return`; on `json.success` set the user to
`json.data` and re-persist it, alerting success; otherwise throw
`json.error || fallback` and alert it in the catch; a transport failure
alerts (modelled by the fallback string) and leaves the session intact. -/
def handleRotateKey (st : SessionState) (r : RotateResponse) : RotateResult :=
  match st.user with
  | none => ⟨st, none⟩
  | some _ =>
      match r with
      | .transportError => ⟨st, some rotateFailMsg⟩
      | .reply success err data =>
          if success then
            ⟨⟨data, data⟩, some "API key rotated successfully"⟩
          else ⟨st, some (err.getD rotateFailMsg)⟩

/-! ## Browse-state transition of the filter bar (part_003 lines 301-311) -/

/-- The filter-related slice of the browse state. -/
structure BrowseState where
  filter : Filter
  onlyActive : Bool
deriving DecidableEq, Repr

/-- The `setFilter` prop handed to `FiltersBar`:
`(f) => { setOnlyActive(false); setFilter(f); }`. -/
def filtersBarSetFilter (_st : BrowseState) (f : Filter) : BrowseState :=
  { filter := f, onlyActive := false }

/-! ## API path resolver (src/utils/api.ts lines 4-20) -/

/-- Regex test `/^https?:\/\//i`. -/
def isAbsoluteUrlL (l : List Char) : Bool :=
  "http://".data.isPrefixOf (l.map Char.toLower)
  || "https://".data.isPrefixOf (l.map Char.toLower)

/-- `API_BASE.replace(/\/+$/, '')`. -/
def rstripSlashesL (l : List Char) : List Char := dropTrailingWhile isSlash l

/-- `path.replace(/^\/+|\/+$/g, '')`. -/
def stripSlashesL (l : List Char) : List Char := stripWhile isSlash l

/-- `api(path)` with the configured base made explicit (`cleanBase` /
`cleanPath` inlined): empty clean base returns a root-relative path; an
absolute `http(s)://` path passes through; a path already starting with the
clean base passes through; otherwise base and path join with one slash. -/
def apiResolveL (base path : List Char) : List Char :=
  if (rstripSlashesL base).isEmpty then '/' :: stripSlashesL path
  else if isAbsoluteUrlL path then path
  else if (rstripSlashesL base).isPrefixOf path then path
  else rstripSlashesL base ++ '/' :: stripSlashesL path

/-- The resolver at `String` level. -/
def api (base path : String) : String := ⟨apiResolveL base.data path.data⟩

/-! ## Sample data for concrete checks -/

def itemKeys : Item :=
  { _id := "1", id := "1", type := .lost, category := "Keys", title := "Keys",
    description := "redkeys", location := "Hall", status := "active" }

def itemWallet : Item :=
  { _id := "2", id := "2", type := .found, category := "Wallets",
    title := "LostWallet", description := "brown", location := "Gym",
    status := "resolved" }

def itemDupA : Item :=
  { _id := "7", id := "7", type := .lost, category := "Keys", title := "A",
    status := "active" }

def itemDupB : Item :=
  { _id := "7", id := "7", type := .found, category := "Keys", title := "B",
    status := "active" }

def userAnn : User :=
  { userId := "u1", name := "Ann", email := "a@x", apiKey := "k1" }

def userAnn2 : User :=
  { userId := "u1", name := "Ann", email := "a@x", apiKey := "k2" }

/-! ## Helper lemmas -/

theorem dropWhile_head_not {α : Type} {p : α → Bool} {l : List α} {a : α}
    {t : List α} (h : l.dropWhile p = a :: t) : p a = false := by
  induction l with
  | nil => simp [List.dropWhile] at h
  | cons c cs ih =>
    rw [List.dropWhile_cons] at h
    by_cases hc : p c
    · exact ih (by simpa [hc] using h)
    · simp only [hc, if_false] at h
      simp only [Bool.false_eq_true, if_false, List.cons.injEq] at h
      obtain ⟨h1, _⟩ := h
      subst h1
      simpa using hc

theorem dropWhile_dropWhile {α : Type} (p : α → Bool) (l : List α) :
    (l.dropWhile p).dropWhile p = l.dropWhile p := by
  cases h : l.dropWhile p with
  | nil => rfl
  | cons a t =>
    rw [List.dropWhile_cons, dropWhile_head_not h]
    simp

theorem dropTrailingWhile_prefix (p : Char → Bool) (l : List Char) :
    dropTrailingWhile p l <+: l := by
  have h := List.reverse_prefix.mpr (List.dropWhile_suffix (l := l.reverse) p)
  rwa [List.reverse_reverse] at h

theorem dropTrailingWhile_idem (p : Char → Bool) (l : List Char) :
    dropTrailingWhile p (dropTrailingWhile p l) = dropTrailingWhile p l := by
  unfold dropTrailingWhile
  rw [List.reverse_reverse, dropWhile_dropWhile]

theorem stripSlashesL_no_leading (l : List Char) :
    (stripSlashesL l).dropWhile isSlash = stripSlashesL l := by
  unfold stripSlashesL stripWhile
  cases h : dropTrailingWhile isSlash (l.dropWhile isSlash) with
  | nil => rfl
  | cons a t =>
    have hpre := dropTrailingWhile_prefix isSlash (l.dropWhile isSlash)
    rw [h] at hpre
    obtain ⟨r, hr⟩ := hpre
    have ha : isSlash a = false := dropWhile_head_not (t := t ++ r)
      (by rw [← hr]; exact List.cons_append a t r)
    rw [List.dropWhile_cons, ha]
    simp

theorem stripSlashesL_cons_slash (l : List Char) :
    stripSlashesL ('/' :: stripSlashesL l) = stripSlashesL l := by
  unfold stripSlashesL stripWhile
  rw [List.dropWhile_cons]
  have hs : isSlash '/' = true := by decide
  rw [hs]
  simp only [if_true]
  have h1 := stripSlashesL_no_leading l
  unfold stripSlashesL stripWhile at h1
  rw [h1, dropTrailingWhile_idem]

theorem isPrefixOf_append (l t : List Char) : l.isPrefixOf (l ++ t) = true := by
  rw [List.isPrefixOf_iff_prefix]
  exact ⟨t, rfl⟩

theorem jsToLower_eq_empty_iff (s : String) : jsToLower s = "" ↔ s = "" := by
  constructor
  · intro h
    have hd := congrArg String.data h
    have : s.data.map Char.toLower = [] := hd
    exact String.ext (List.map_eq_nil_iff.mp this)
  · intro h
    rw [h]
    rfl

theorem decide_toLower_trim_empty (q : String) :
    decide (jsToLower (jsTrim q) = "") = decide (jsTrim q = "") :=
  decide_eq_decide.mpr (jsToLower_eq_empty_iff _)

theorem jsTrim_of_all_ws (s : String) (h : s.data.all isWs = true) :
    jsTrim s = "" := by
  apply String.ext
  show stripWhile isWs s.data = ("" : String).data
  have h1 : s.data.dropWhile isWs = [] :=
    List.dropWhile_eq_nil_iff.mpr (fun x hx => List.all_eq_true.mp h x hx)
  unfold stripWhile dropTrailingWhile
  rw [h1]
  rfl

theorem itemMatches_trim_congr {s t : String} (h : jsTrim s = jsTrim t)
    (f : Filter) (act : Bool) (it : Item) :
    itemMatches f s act it = itemMatches f t act it := by
  unfold itemMatches
  rw [h]

theorem itemMatches_split (ft : FilterType) (cat : String) (q : String)
    (act : Bool) (it : Item) :
    itemMatches ⟨ft, cat⟩ q act it
      = (matchesType ft it.type && restMatches cat q act it) := by
  simp [itemMatches, restMatches, Bool.and_assoc]

/-! ## Claim theorems -/

/-- C1, counterexample: with the whitespace search term `" "` the engine
returns the item (the trimmed term is empty), while the spec's untrimmed
reading excludes it (`" "` is non-empty and occurs in none of the fields). -/
theorem filteredItems_untrimmed_spec_counterexample :
    filteredItems [itemKeys] ⟨.all, "all"⟩ " " false
      ≠ specVisible [itemKeys] ⟨.all, "all"⟩ " " false := by decide

/-- C1 (amended): for every item list, filter state and search term, the
filter engine returns exactly those items, in repository order, that pass
the four tests, where the search test applies to the search term after
trimming surrounding whitespace: the trimmed term is empty or occurs
case-insensitively as a substring of title, description or location. -/
theorem filteredItems_eq_specVisible_trimmed (items : List Item) (f : Filter)
    (q : String) (act : Bool) :
    filteredItems items f q act = specVisible items f (jsTrim q) act := by
  unfold filteredItems specVisible
  apply List.filter_congr
  intro it _
  unfold itemMatches specVisiblePass
  rw [decide_toLower_trim_empty]

/-- C2, counterexample: a transport failure with a non-empty repository
leaves the items in place but surfaces no error at all (`error` stays
cleared), contradicting the claim that a failure always raises an error. -/
theorem fetchItems_silent_failure_counterexample :
    (fetchItems ⟨[itemKeys], none⟩ .failure).items = [itemKeys]
    ∧ (fetchItems ⟨[itemKeys], none⟩ .failure).error = none := by decide

/-- C2 (amended): an ok response replaces the repository wholesale with the
server's array mapped to client ids (empty array ⇒ empty repository, no
error); a transport failure keeps the prior items and surfaces an error
exactly when the repository was empty; a non-ok status other than 404
behaves like a transport failure; a 404 empties the repository silently. -/
theorem fetchItems_amended_spec (prior : LoadState) (status : Nat)
    (succ : Bool) (l : List Item) :
    fetchItems prior (.http true status succ (some l))
        = ⟨l.map withClientId, none⟩
    ∧ fetchItems prior (.http true status succ (some [])) = ⟨[], none⟩
    ∧ ((fetchItems prior .failure).items = prior.items
        ∧ ((fetchItems prior .failure).error = none ↔ prior.items ≠ []))
    ∧ (status ≠ 404 →
        fetchItems prior (.http false status succ none)
          = fetchItems prior .failure)
    ∧ fetchItems prior (.http false 404 succ none) = ⟨[], none⟩ := by
  refine ⟨rfl, rfl, ⟨rfl, ?_⟩, ?_, rfl⟩
  · show (if prior.items.length = 0 then some loadFailMsg else none) = none
      ↔ prior.items ≠ []
    by_cases h : prior.items.length = 0
    · simp [h, List.length_eq_zero.mp h]
    · have hne : prior.items ≠ [] := fun hc => h (by simp [hc])
      simp [h, hne]
  · intro hs
    show (if status = 404 then LoadState.mk [] none
          else ⟨prior.items,
                if prior.items.length = 0 then some loadFailMsg else none⟩)
        = ⟨prior.items,
           if prior.items.length = 0 then some loadFailMsg else none⟩
    rw [if_neg hs]

theorem fetchItems_amended_spec_witness :
    (500 ≠ 404)
    ∧ fetchItems ⟨[itemKeys], none⟩ (.http false 500 true none)
        = fetchItems ⟨[itemKeys], none⟩ .failure :=
  ⟨by decide,
    (fetchItems_amended_spec ⟨[itemKeys], none⟩ 500 true []).2.2.2.1 (by decide)⟩

theorem removeById_not_mem (items : List Item) (id : String)
    (h : ∀ it ∈ items, it.id ≠ id) : removeById items id = items := by
  apply List.filter_eq_self.mpr
  intro a ha
  simpa using h a ha

theorem removeById_unique_aux (id : String) : ∀ (items : List Item),
    (items.map Item.id).Nodup → ∀ x ∈ items, x.id = id →
      ∃ pre post, items = pre ++ x :: post ∧ removeById items id = pre ++ post := by
  intro items
  induction items with
  | nil => intro _ x hx; cases hx
  | cons y t ih =>
    intro hnd x hx hxid
    rw [List.map_cons, List.nodup_cons] at hnd
    obtain ⟨hy_not, hnd_t⟩ := hnd
    by_cases hy : y.id = id
    · have hxy : x = y := by
        rcases List.mem_cons.mp hx with h | h
        · exact h
        · exfalso
          apply hy_not
          rw [hy, ← hxid]
          exact List.mem_map_of_mem Item.id h
      refine ⟨[], t, by rw [hxy]; rfl, ?_⟩
      show removeById (y :: t) id = t
      unfold removeById
      rw [List.filter_cons]
      have hyb : (!decide (y.id = id)) = false := by simp [hy]
      rw [hyb]
      simp only [Bool.false_eq_true, if_false]
      apply List.filter_eq_self.mpr
      intro a ha
      have : a.id ≠ id := by
        intro hc
        apply hy_not
        rw [hy, ← hc]
        exact List.mem_map_of_mem Item.id ha
      simpa using this
    · have hx' : x ∈ t := by
        rcases List.mem_cons.mp hx with h | h
        · exact absurd (h ▸ hxid) hy
        · exact h
      obtain ⟨pre, post, hsplit, hrem⟩ := ih hnd_t x hx' hxid
      refine ⟨y :: pre, post, by rw [List.cons_append, hsplit], ?_⟩
      show removeById (y :: t) id = y :: (pre ++ post)
      unfold removeById at hrem ⊢
      rw [List.filter_cons]
      have hyb : (!decide (y.id = id)) = true := by simp [hy]
      rw [hyb]
      simp only [if_true, hrem]

/-- C3, counterexample: on a repository holding two items with the same
identifier, `removeById` removes both of them, not exactly one. -/
theorem removeById_duplicate_ids_counterexample :
    [itemDupA, itemDupB].length = 2
    ∧ (∃ x ∈ [itemDupA, itemDupB], x.id = "7")
    ∧ (removeById [itemDupA, itemDupB] "7").length = 0 := by decide

/-- C3 (amended): when no item carries the identifier, `removeById` is a
no-op; and on a repository whose identifiers are pairwise distinct it
removes exactly the one matching item, leaving the rest in order. -/
theorem removeById_spec (items : List Item) (id : String) :
    ((∀ it ∈ items, it.id ≠ id) → removeById items id = items)
    ∧ ((items.map Item.id).Nodup → ∀ x ∈ items, x.id = id →
        ∃ pre post, items = pre ++ x :: post
          ∧ removeById items id = pre ++ post) :=
  ⟨removeById_not_mem items id, removeById_unique_aux id items⟩

theorem removeById_spec_witness :
    (∀ it ∈ [itemKeys, itemWallet], it.id ≠ "9")
    ∧ removeById [itemKeys, itemWallet] "9" = [itemKeys, itemWallet]
    ∧ ([itemKeys, itemWallet].map Item.id).Nodup
    ∧ itemWallet ∈ [itemKeys, itemWallet] ∧ itemWallet.id = "2"
    ∧ ∃ pre post, [itemKeys, itemWallet] = pre ++ itemWallet :: post
        ∧ removeById [itemKeys, itemWallet] "2" = pre ++ post :=
  ⟨by decide, (removeById_spec [itemKeys, itemWallet] "9").1 (by decide),
    by decide, by decide, by decide,
    (removeById_spec [itemKeys, itemWallet] "2").2 (by decide) itemWallet
      (by decide) (by decide)⟩

/-- C4: when the create action resolves with an ok, successful response
carrying the server-confirmed item, the repository gains exactly that one
entry at index 0 (head is the saved item, tail is the prior sequence,
length grows by one) and the draft form resets to its defaults. -/
theorem handleSubmit_success_inserts_at_head (today : String)
    (st : SubmitState) (d : Item) (err : Option String) :
    (handleSubmitResolve today st (.reply true true (some d) err)).state.items
        = withClientId d :: st.items
    ∧ (handleSubmitResolve today st (.reply true true (some d) err)).state.items.head?
        = some (withClientId d)
    ∧ (handleSubmitResolve today st (.reply true true (some d) err)).state.items.tail
        = st.items
    ∧ (handleSubmitResolve today st (.reply true true (some d) err)).state.items.length
        = st.items.length + 1
    ∧ (handleSubmitResolve today st (.reply true true (some d) err)).state.formData
        = defaultFormData today :=
  ⟨rfl, rfl, rfl, rfl, rfl⟩

/-- C5, counterexample: with an empty configured base, an already-absolute
URL is not passed through unchanged — it is rewritten to a root-relative
path. -/
theorem api_empty_base_absolute_counterexample :
    api "" "http://x/a" ≠ "http://x/a" := by decide

/-- C5 (amended): whenever the configured base stripped of trailing slashes
is non-empty, every path beginning with `http://` or `https://`
(case-insensitively) is returned unchanged; with an empty base the resolver
instead returns the path stripped of surrounding slashes behind a single
leading slash. -/
theorem api_absolute_passthrough (base path : String)
    (hb : (rstripSlashesL base.data).isEmpty = false)
    (hp : isAbsoluteUrlL path.data = true) :
    api base path = path := by
  unfold api apiResolveL
  simp only [hb, hp, Bool.false_eq_true, if_false, if_true]

theorem api_absolute_passthrough_witness :
    ((rstripSlashesL ("b" : String).data).isEmpty = false)
    ∧ (isAbsoluteUrlL ("HTTP://x" : String).data = true)
    ∧ api "b" "HTTP://x" = "HTTP://x" :=
  ⟨by decide, by decide, api_absolute_passthrough "b" "HTTP://x" (by decide) (by decide)⟩

theorem apiResolveL_idem (base path : List Char) :
    apiResolveL base (apiResolveL base path) = apiResolveL base path := by
  by_cases hb : (rstripSlashesL base).isEmpty
  · have h1 : apiResolveL base path = '/' :: stripSlashesL path := by
      unfold apiResolveL
      rw [if_pos hb]
    rw [h1]
    unfold apiResolveL
    rw [if_pos hb, stripSlashesL_cons_slash]
  · by_cases ha : isAbsoluteUrlL path
    · have h1 : apiResolveL base path = path := by
        unfold apiResolveL
        rw [if_neg hb, if_pos ha]
      rw [h1]
      exact h1
    · by_cases hpre : (rstripSlashesL base).isPrefixOf path
      · have h1 : apiResolveL base path = path := by
          unfold apiResolveL
          rw [if_neg hb, if_neg ha, if_pos hpre]
        rw [h1]
        exact h1
      · have h1 : apiResolveL base path
            = rstripSlashesL base ++ '/' :: stripSlashesL path := by
          unfold apiResolveL
          rw [if_neg hb, if_neg ha, if_neg hpre]
        rw [h1]
        unfold apiResolveL
        rw [if_neg hb]
        by_cases ha2 : isAbsoluteUrlL (rstripSlashesL base ++ '/' :: stripSlashesL path)
        · rw [if_pos ha2]
        · rw [if_neg ha2, if_pos (isPrefixOf_append _ _)]

/-- C6: the API path resolver is idempotent — resolving an already-resolved
URL returns it unchanged, for every configured base and every path. -/
theorem api_idempotent (base path : String) :
    api base (api base path) = api base path :=
  congrArg String.mk (apiResolveL_idem base.data path.data)

/-- C7: for any fixed category filter, search term and active-only setting,
filtering with type `lost` and with type `found` partition the items that
pass the other tests: each such item lands in exactly one of the two
results. -/
theorem filtered_lost_found_partition (items : List Item) (cat q : String)
    (act : Bool) (it : Item) (hmem : it ∈ items)
    (hrest : restMatches cat q act it = true) :
    (it ∈ filteredItems items ⟨.lost, cat⟩ q act
      ∧ it ∉ filteredItems items ⟨.found, cat⟩ q act)
    ∨ (it ∈ filteredItems items ⟨.found, cat⟩ q act
      ∧ it ∉ filteredItems items ⟨.lost, cat⟩ q act) := by
  unfold filteredItems
  cases hty : it.type
  · left
    constructor
    · exact List.mem_filter.mpr
        ⟨hmem, by rw [itemMatches_split, hty, hrest]; rfl⟩
    · intro hc
      have hm := (List.mem_filter.mp hc).2
      rw [itemMatches_split, hty] at hm
      simp [matchesType] at hm
  · right
    constructor
    · exact List.mem_filter.mpr
        ⟨hmem, by rw [itemMatches_split, hty, hrest]; rfl⟩
    · intro hc
      have hm := (List.mem_filter.mp hc).2
      rw [itemMatches_split, hty] at hm
      simp [matchesType] at hm

theorem filtered_lost_found_partition_witness :
    (itemKeys ∈ [itemKeys] ∧ restMatches "all" "" false itemKeys = true)
    ∧ ((itemKeys ∈ filteredItems [itemKeys] ⟨.lost, "all"⟩ "" false
        ∧ itemKeys ∉ filteredItems [itemKeys] ⟨.found, "all"⟩ "" false)
      ∨ (itemKeys ∈ filteredItems [itemKeys] ⟨.found, "all"⟩ "" false
        ∧ itemKeys ∉ filteredItems [itemKeys] ⟨.lost, "all"⟩ "" false)) :=
  ⟨⟨by decide, by decide⟩,
    filtered_lost_found_partition [itemKeys] "all" "" false itemKeys
      (by decide) (by decide)⟩

/-- C8: given an existing session, a successful rotate response replaces the
session with the server-returned one and re-persists it; a non-success
response or a transport failure leaves both the in-memory session and its
persisted copy untouched and surfaces an alert. -/
theorem handleRotateKey_spec (st : SessionState) (u : User)
    (hu : st.user = some u) :
    (∀ (err : Option String) (s : User),
        handleRotateKey st (.reply true err (some s))
          = ⟨⟨some s, some s⟩, some "API key rotated successfully"⟩)
    ∧ ((handleRotateKey st .transportError).state = st
        ∧ (handleRotateKey st .transportError).alert ≠ none)
    ∧ (∀ (err : Option String) (d : Option User),
        (handleRotateKey st (.reply false err d)).state = st
          ∧ (handleRotateKey st (.reply false err d)).alert ≠ none) := by
  unfold handleRotateKey
  rw [hu]
  refine ⟨fun err s => rfl, ⟨rfl, by simp⟩, fun err d => ⟨rfl, ?_⟩⟩
  cases err <;> simp

theorem handleRotateKey_spec_witness :
    ((⟨some userAnn, some userAnn⟩ : SessionState).user = some userAnn)
    ∧ handleRotateKey ⟨some userAnn, some userAnn⟩
        (.reply true none (some userAnn2))
      = ⟨⟨some userAnn2, some userAnn2⟩, some "API key rotated successfully"⟩ :=
  ⟨rfl, (handleRotateKey_spec ⟨some userAnn, some userAnn⟩ userAnn rfl).1 none userAnn2⟩

/-- C9: every filter change made through the filter bar clears the
active-only toggle: the transition always yields `onlyActive = false`, the
resulting view is the one filtered with the toggle off, and with the toggle
off an item's status does not affect its visibility. -/
theorem filtersBar_setFilter_clears_onlyActive (st : BrowseState) (f : Filter)
    (items : List Item) (q : String) (it : Item) :
    (filtersBarSetFilter st f).onlyActive = false
    ∧ filteredItems items (filtersBarSetFilter st f).filter q
        (filtersBarSetFilter st f).onlyActive
      = filteredItems items f q false
    ∧ (∀ s : String, itemMatches f q false { it with status := s }
        = itemMatches f q false it) :=
  ⟨rfl, rfl, fun _ => rfl⟩

/-- C10: a search term consisting only of whitespace is trimmed away and
yields the same visible list as the empty search term. -/
theorem filteredItems_whitespace_eq_empty (items : List Item) (f : Filter)
    (act : Bool) (s : String) (hws : s.data.all isWs = true) :
    filteredItems items f s act = filteredItems items f "" act := by
  have h : jsTrim s = jsTrim "" := by
    rw [jsTrim_of_all_ws s hws]
    rfl
  unfold filteredItems
  exact List.filter_congr (fun it _ => itemMatches_trim_congr h f act it)

theorem filteredItems_whitespace_eq_empty_witness :
    (" ".data.all isWs = true)
    ∧ filteredItems [itemKeys, itemWallet] ⟨.all, "all"⟩ " " false
        = filteredItems [itemKeys, itemWallet] ⟨.all, "all"⟩ "" false :=
  ⟨by decide,
    filteredItems_whitespace_eq_empty [itemKeys, itemWallet] ⟨.all, "all"⟩
      false " " (by decide)⟩

end LostFound

